import Mathlib

/-!
Verification of the receipt-points service in `src/main.go`.

The Go program exposes two HTTP handlers over a process-wide map
`receipts : map[string]int`, and a pure scoring function `calculatePoints`.
This file gives a shallow embedding of that program:

* Monetary amounts (`float64` in Go) are modelled as exact rationals `ℚ`;
  Go's `int(x)` float-to-int conversion truncates toward zero, modelled by
  `FetchApp.qtrunc`.  At every concrete amount used below the `float64`
  computation is exact or rounds to the same truncated integer, so the
  rational model agrees with the Go behavior on these inputs.
* Go `%` on `int` is truncated remainder, modelled by `Int.tmod`.
* `fmt.Sscanf(s, "%d-%d-%d", ...)` / `"%d:%d"` are modelled by a scanner
  that skips leading whitespace, reads an optionally signed digit run,
  then matches the literal separator; variables not reached before a scan
  failure keep their zero value, exactly as in the Go code.
* Go `len` on a string is its UTF-8 byte count (`FetchApp.goLen`), and
  `for range` over a string iterates runes (`String.data` here).
* The store `map[string]int` is modelled as an association list where the
  most recent insertion shadows older ones; `uuid.New().String()` is an
  external library call, so the generated identifier is an explicit
  parameter of `submit`.
-/

namespace FetchApp

/-- Model of the Go struct `Item` (src/main.go): one purchased item. -/
structure Item where
  description : String
  price : ℚ
deriving Repr

/-- Model of the Go struct `Receipt` (src/main.go). -/
structure Receipt where
  retailer : String
  total : ℚ
  purchaseDate : String
  purchaseTime : String
  items : List Item
deriving Repr

/-- Go's `int(x)` conversion from `float64`: truncation toward zero. -/
def qtrunc (q : ℚ) : ℤ := if 0 ≤ q then ⌊q⌋ else ⌈q⌉

/-- The character test of rule 1 in `calculatePoints`:
`(c >= 'a' && c <= 'z') || (c >= 'A' && c <= 'Z') || (c >= '0' && c <= '9')`. -/
def isGoAlnum (c : Char) : Bool :=
  ('a' ≤ c && c ≤ 'z') || ('A' ≤ c && c ≤ 'Z') || ('0' ≤ c && c ≤ '9')

/-- Number of bytes of the UTF-8 encoding of one character. -/
def charBytes (c : Char) : Nat :=
  if c.val < 0x80 then 1 else if c.val < 0x800 then 2
  else if c.val < 0x10000 then 3 else 4

/-- Go `len(s)` for a string: the UTF-8 byte count, not the rune count. -/
def goLen (s : String) : Nat := (s.data.map charBytes).sum

/-- Numeric value of a run of decimal digits (most significant first). -/
def digitsVal (l : List Char) : Nat :=
  l.foldl (fun n c => 10 * n + (c.toNat - '0'.toNat)) 0

/-- Scan a nonempty run of decimal digits; `none` if the input does not
start with a digit.  Returns the value and the unconsumed rest. -/
def scanDigits (l : List Char) : Option (Nat × List Char) :=
  let ds := l.takeWhile (fun c => c.isDigit)
  if ds.isEmpty then none else some (digitsVal ds, l.drop ds.length)

/-- One `%d` verb of `fmt.Sscanf`: skip leading whitespace, then an
optionally signed decimal integer; `none` on failure. -/
def scanInt (l : List Char) : Option (ℤ × List Char) :=
  let l1 := l.dropWhile (fun c => c.isWhitespace)
  match l1 with
  | '-' :: rest => (scanDigits rest).map (fun p => (-(p.1 : ℤ), p.2))
  | '+' :: rest => (scanDigits rest).map (fun p => ((p.1 : ℤ), p.2))
  | _ => (scanDigits l1).map (fun p => ((p.1 : ℤ), p.2))

/-- `fmt.Sscanf(s, "%d-%d-%d", &year, &month, &day)` as used on
`purchaseDate`: fields are read positionally; on the first failure the
remaining variables keep their zero value. -/
def scanDate (s : String) : ℤ × ℤ × ℤ :=
  match scanInt s.data with
  | none => (0, 0, 0)
  | some (y, r1) =>
    match r1 with
    | '-' :: r2 =>
      match scanInt r2 with
      | none => (y, 0, 0)
      | some (m, r3) =>
        match r3 with
        | '-' :: r4 =>
          match scanInt r4 with
          | none => (y, m, 0)
          | some (d, _) => (y, m, d)
        | _ => (y, m, 0)
    | _ => (y, 0, 0)

/-- `fmt.Sscanf(s, "%d:%d", &hour, &minute)` as used on `purchaseTime`. -/
def scanTime (s : String) : ℤ × ℤ :=
  match scanInt s.data with
  | none => (0, 0)
  | some (h, r1) =>
    match r1 with
    | ':' :: r2 =>
      match scanInt r2 with
      | none => (h, 0)
      | some (m, _) => (h, m)
    | _ => (h, 0)

/-- `calculatePoints` from src/main.go, translated line by line.  The
accumulator `points` is threaded exactly as in the Go function. -/
def calculatePoints (receipt : Receipt) : ℤ :=
  let points : ℤ := 0
  -- 1. one point per alphanumeric character of the retailer name
  let points := receipt.retailer.data.foldl
    (fun p c => if isGoAlnum c then p + 1 else p) points
  -- 2. 50 points if the total is a round dollar amount with no cents
  let points := if receipt.total = ((qtrunc receipt.total : ℤ) : ℚ)
    then points + 50 else points
  -- 3. the check `int(receipt.Total*4)%4 == 0`
  let points := if (qtrunc (receipt.total * 4)).tmod 4 = 0
    then points + 25 else points
  -- 4. 5 points for every two items
  let points := points + ((receipt.items.length / 2 : ℕ) : ℤ) * 5
  -- 5. per-item bonus when the byte length of the description is ≡ 0 mod 3
  let points := receipt.items.foldl
    (fun p item => if goLen item.description % 3 = 0
      then p + qtrunc (item.price * 0.2 + 0.5) else p) points
  -- 6. 6 points if the day of the purchase date is odd
  let d := scanDate receipt.purchaseDate
  let points := if d.2.2.tmod 2 ≠ 0 then points + 6 else points
  -- 7. 10 points if the hour is in [14, 16)
  let t := scanTime receipt.purchaseTime
  let points := if 14 ≤ t.1 ∧ t.1 < 16 then points + 10 else points
  points

/-! Named contributions of the seven rules, used to state the claims.
`calculatePoints_eq` below proves that `calculatePoints` is their sum. -/

/-- Rule 1: +1 per alphanumeric character of the retailer name. -/
def retailerPoints (s : String) : ℤ :=
  (s.data.map (fun c => if isGoAlnum c then (1 : ℤ) else 0)).sum

/-- Rule 2: +50 when the total equals its truncation to whole units. -/
def roundBonus (t : ℚ) : ℤ :=
  if t = ((qtrunc t : ℤ) : ℚ) then 50 else 0

/-- Rule 3 as implemented: +25 when `int(total*4) % 4 == 0`. -/
def quarterBonus (t : ℚ) : ℤ :=
  if (qtrunc (t * 4)).tmod 4 = 0 then 25 else 0

/-- Rule 4: +5 for every two items (integer division). -/
def pairPoints (items : List Item) : ℤ := ((items.length / 2 : ℕ) : ℤ) * 5

/-- Rule 5, one item: bonus `int(price*0.2 + 0.5)` when the UTF-8 byte
length of the description is a multiple of 3. -/
def itemBonus (it : Item) : ℤ :=
  if goLen it.description % 3 = 0 then qtrunc (it.price * 0.2 + 0.5) else 0

/-- Rule 5, all items. -/
def descPoints (items : List Item) : ℤ := (items.map itemBonus).sum

/-- Rule 6: +6 when the scanned day is odd (`day % 2 != 0` in Go). -/
def dayBonus (s : String) : ℤ :=
  if ((scanDate s).2.2).tmod 2 ≠ 0 then 6 else 0

/-- Rule 7: +10 when the scanned hour lies in `[14, 16)`. -/
def timeBonus (s : String) : ℤ :=
  if 14 ≤ (scanTime s).1 ∧ (scanTime s).1 < 16 then 10 else 0

/-- Rule 5 following the specification's words instead of the source:
the description length is counted in characters (runes), not bytes.
Used only to compare the spec's phrasing with the implementation. -/
def itemBonusChars (it : Item) : ℤ :=
  if it.description.length % 3 = 0 then qtrunc (it.price * 0.2 + 0.5) else 0

/-! The store and the two handlers. -/

/-- The process-wide map `receipts : map[string]int`, as an association
list in which the most recent insertion wins. -/
abbrev Store := List (String × ℤ)

/-- Go `receipts[id] = points`. -/
def put (s : Store) (id : String) (p : ℤ) : Store := (id, p) :: s

/-- Go `points, found := receipts[id]`: the value and a presence flag;
a missing key yields the zero value `(0, false)`. -/
def get : Store → String → ℤ × Bool
  | [], _ => (0, false)
  | (k, v) :: rest, id => if k = id then (v, true) else get rest id

/-- The body of `processReceiptHandler` after a successful JSON decode:
generate an identifier (passed in, since `uuid.New` is an external
library call), compute the points, store them, and answer with the
identifier. -/
def submit (s : Store) (id : String) (r : Receipt) : String × Store :=
  let points := calculatePoints r
  (id, put s id points)

/-- `strings.TrimPrefix`: drop `pre` from the front when present. -/
def goTrimPre (pre l : List Char) : List Char :=
  if l.take pre.length = pre then l.drop pre.length else l

/-- `strings.Split` with a one-character separator. -/
def splitChar (sep : Char) : List Char → List (List Char)
  | [] => [[]]
  | c :: cs =>
    match splitChar sep cs with
    | [] => [[]]
    | p :: ps => if c = sep then [] :: p :: ps else (c :: p) :: ps

/-- The prefix literal `"/receipts/"` of `getPointsHandler`. -/
def receiptsPre : List Char := "/receipts/".data

/-- The path segment literal `"points"`. -/
def pointsSeg : List Char := "points".data

/-- `strings.Split(strings.TrimPrefix(path, "/receipts/"), "/")`. -/
def pathSegments (p : String) : List (List Char) :=
  splitChar '/' (goTrimPre receiptsPre p.data)

/-- The path check of `getPointsHandler`: accept exactly two segments
whose second is `points`, and return the first as the identifier. -/
def parseFetchPath (p : String) : Option String :=
  match pathSegments p with
  | [id, seg] => if seg = pointsSeg then some (String.mk id) else none
  | _ => none

/-- Outcome of `getPointsHandler`: `ok` is the 200 response
`{"points": n}`, `notFound` the 404 body `"Receipt not found"`, and
`invalidEndpoint` the 404 body `"Invalid endpoint"`. -/
inductive FetchResult where
  | ok (points : ℤ)
  | notFound
  | invalidEndpoint
deriving DecidableEq, Repr

/-- The body of `getPointsHandler` for a GET request: check the path
shape, then look the identifier up in the store. -/
def fetch (s : Store) (p : String) : FetchResult :=
  match parseFetchPath p with
  | none => .invalidEndpoint
  | some id =>
    match get s id with
    | (pts, true) => .ok pts
    | (_, false) => .notFound

/-! Helper lemmas. -/

/-- Go's `x % n == 0` test does not depend on the remainder convention:
truncated remainder zero is exactly divisibility. -/
theorem tmod_zero_iff_dvd (a n : ℤ) : a.tmod n = 0 ↔ n ∣ a :=
  ⟨Int.dvd_of_tmod_eq_zero, Int.tmod_eq_zero_of_dvd⟩

/-- Truncation of an integer value is that integer. -/
theorem qtrunc_intCast (z : ℤ) : qtrunc ((z : ℤ) : ℚ) = z := by
  unfold qtrunc
  split <;> simp

/-- Evaluate `qtrunc` on a non-negative rational from floor bounds. -/
theorem qtrunc_eq_of (z : ℤ) (q : ℚ) (h0 : 0 ≤ q) (h1 : (z : ℚ) ≤ q)
    (h2 : q < (z : ℚ) + 1) : qtrunc q = z := by
  rw [qtrunc, if_pos h0]
  exact Int.floor_eq_iff.mpr ⟨h1, h2⟩

/-- The rule-1 accumulation loop equals its initial value plus the sum of
the per-character contributions. -/
theorem foldl_alnum (l : List Char) (a : ℤ) :
    l.foldl (fun p c => if isGoAlnum c then p + 1 else p) a
      = a + (l.map (fun c => if isGoAlnum c then (1 : ℤ) else 0)).sum := by
  induction l generalizing a with
  | nil => simp
  | cons c cs ih =>
    rw [List.foldl_cons, ih]
    rw [List.map_cons, List.sum_cons]
    split <;> ring

/-- The rule-5 accumulation loop equals its initial value plus the sum of
the per-item bonuses. -/
theorem foldl_items (l : List Item) (a : ℤ) :
    l.foldl (fun p item => if goLen item.description % 3 = 0
        then p + qtrunc (item.price * 0.2 + 0.5) else p) a
      = a + (l.map itemBonus).sum := by
  induction l generalizing a with
  | nil => simp
  | cons it its ih =>
    rw [List.foldl_cons, ih]
    rw [List.map_cons, List.sum_cons]
    unfold itemBonus
    split <;> ring

/-- `calculatePoints` is the sum of the seven rule contributions. -/
theorem calculatePoints_eq (r : Receipt) :
    calculatePoints r
      = retailerPoints r.retailer + roundBonus r.total + quarterBonus r.total
        + pairPoints r.items + descPoints r.items + dayBonus r.purchaseDate
        + timeBonus r.purchaseTime := by
  simp only [calculatePoints, retailerPoints, roundBonus, quarterBonus,
    pairPoints, descPoints, dayBonus, timeBonus]
  rw [foldl_alnum, foldl_items]
  split_ifs <;> ring

/-- Reading back the key just written returns the value just written. -/
theorem get_put (s : Store) (id : String) (p : ℤ) :
    get (put s id p) id = (p, true) := by
  simp [get, put]

/-- Looking up a key that no entry carries yields the zero value and
`found = false`. -/
theorem get_of_not_mem (s : Store) (id : String) (h : ∀ e ∈ s, e.1 ≠ id) :
    get s id = (0, false) := by
  induction s with
  | nil => rfl
  | cons e rest ih =>
    obtain ⟨k, v⟩ := e
    have hk : k ≠ id := h (k, v) (List.mem_cons_self _ _)
    rw [get, if_neg hk]
    exact ih fun e he => h e (List.mem_cons_of_mem _ he)

/-- Evaluate `quarterBonus` once the truncation of `4 * total` is known. -/
theorem quarterBonus_eq_of (t : ℚ) (z : ℤ) (h0 : 0 ≤ t * 4)
    (h1 : (z : ℚ) ≤ t * 4) (h2 : t * 4 < (z : ℚ) + 1) :
    quarterBonus t = if z.tmod 4 = 0 then 25 else 0 := by
  unfold quarterBonus
  rw [qtrunc_eq_of z _ h0 h1 h2]

/-- Evaluate `roundBonus` on a value strictly between two integers. -/
theorem roundBonus_eq_zero_of (t : ℚ) (z : ℤ) (h0 : 0 ≤ t)
    (h1 : (z : ℚ) ≤ t) (h2 : t < (z : ℚ) + 1) (hne : t ≠ (z : ℚ)) :
    roundBonus t = 0 := by
  unfold roundBonus
  rw [qtrunc_eq_of z t h0 h1 h2, if_neg hne]

/-- Evaluate the rule-5 bonus of one qualifying item. -/
theorem itemBonus_eq_of (d : String) (p : ℚ) (z : ℤ)
    (hlen : goLen d % 3 = 0) (h0 : 0 ≤ p * 0.2 + 0.5)
    (h1 : (z : ℚ) ≤ p * 0.2 + 0.5) (h2 : p * 0.2 + 0.5 < (z : ℚ) + 1) :
    itemBonus ⟨d, p⟩ = z := by
  show (if goLen d % 3 = 0 then qtrunc (p * 0.2 + 0.5) else 0) = z
  rw [if_pos hlen, qtrunc_eq_of z _ h0 h1 h2]

/-! The claims. -/

/-- C1: the rule-3 check `int(total*4)%4 == 0` is not the predicate
"total is a multiple of 0.25" stated in the specification and in the
code's own comment.  The total `35.25` is a multiple of `0.25` yet gets
no +25 (the whole receipt scores 0), while `35.10` is not a multiple of
`0.25` yet gets the +25. -/
theorem C1_quarter_rule_bug :
    (∃ n : ℤ, (35.25 : ℚ) = (n : ℚ) / 4)
      ∧ quarterBonus (35.25 : ℚ) = 0
      ∧ calculatePoints ⟨"", 35.25, "", "", []⟩ = 0
      ∧ (¬ ∃ n : ℤ, (35.1 : ℚ) = (n : ℚ) / 4)
      ∧ quarterBonus (35.1 : ℚ) = 25 := by
  have hq : quarterBonus (35.25 : ℚ) = 0 := by
    rw [quarterBonus_eq_of (35.25 : ℚ) 141 (by norm_num) (by norm_num)
      (by norm_num)]
    decide
  have hr : roundBonus (35.25 : ℚ) = 0 :=
    roundBonus_eq_zero_of _ 35 (by norm_num) (by norm_num) (by norm_num)
      (by norm_num)
  refine ⟨⟨141, by norm_num⟩, hq, ?_, ?_, ?_⟩
  · rw [calculatePoints_eq]
    dsimp only
    rw [hq, hr]
    decide
  · rintro ⟨n, hn⟩
    have h5 : ((5 * n : ℤ) : ℚ) = 702 := by push_cast; linarith
    have h6 : (5 * n : ℤ) = 702 := by exact_mod_cast h5
    omega
  · rw [quarterBonus_eq_of (35.1 : ℚ) 140 (by norm_num) (by norm_num)
      (by norm_num)]
    decide

/-- C2: a receipt whose non-negative total equals its truncation gets
+50 from rule 2 and +25 from rule 3, so the two rules together add 75 to
`calculatePoints`; the bonuses are additive, not mutually exclusive. -/
theorem C2_round_dollar_both_bonuses (r : Receipt) (_h0 : 0 ≤ r.total)
    (hr : r.total = ((qtrunc r.total : ℤ) : ℚ)) :
    roundBonus r.total = 50 ∧ quarterBonus r.total = 25
      ∧ calculatePoints r
        = retailerPoints r.retailer + 75 + pairPoints r.items
          + descPoints r.items + dayBonus r.purchaseDate
          + timeBonus r.purchaseTime := by
  have h50 : roundBonus r.total = 50 := by
    unfold roundBonus
    rw [if_pos hr]
  have h25 : quarterBonus r.total = 25 := by
    have ht : r.total * 4 = ((4 * qtrunc r.total : ℤ) : ℚ) := by
      push_cast
      rw [← hr]
      ring
    unfold quarterBonus
    rw [ht, qtrunc_intCast, if_pos]
    exact Int.tmod_eq_zero_of_dvd ⟨qtrunc r.total, rfl⟩
  refine ⟨h50, h25, ?_⟩
  rw [calculatePoints_eq, h50, h25]
  ring

/-- Witness for C2 at the round-dollar total `35.00`. -/
theorem C2_witness :
    roundBonus (35 : ℚ) = 50 ∧ quarterBonus (35 : ℚ) = 25
      ∧ calculatePoints ⟨"Target", 35, "", "", []⟩
        = retailerPoints "Target" + 75 + pairPoints [] + descPoints []
          + dayBonus "" + timeBonus "" := by
  have h35 : qtrunc (35 : ℚ) = 35 :=
    qtrunc_eq_of 35 (35 : ℚ) (by norm_num) (by norm_num) (by norm_num)
  exact C2_round_dollar_both_bonuses ⟨"Target", 35, "", "", []⟩
    (by norm_num)
    (by show (35 : ℚ) = ((qtrunc (35 : ℚ) : ℤ) : ℚ); rw [h35]; norm_num)

/-- C3 counterexample: the claim counts the description length in
characters, but the code counts UTF-8 bytes.  The description `"aé"` has
2 characters (not a multiple of 3) but 3 bytes, so the code pays the
bonus `int(3.00*0.2+0.5) = 1` that the claim says is not paid: the
one-item receipt scores 1 instead of 0. -/
theorem C3_char_vs_byte_counterexample :
    ("aé" : String).length = 2
      ∧ goLen "aé" = 3
      ∧ itemBonus ⟨"aé", 3⟩ = 1
      ∧ itemBonusChars ⟨"aé", 3⟩ = 0
      ∧ calculatePoints ⟨"", 0.3, "", "", [⟨"aé", 3⟩]⟩ = 1 := by
  have hb : itemBonus ⟨"aé", 3⟩ = 1 :=
    itemBonus_eq_of "aé" 3 1 (by decide) (by norm_num) (by norm_num)
      (by norm_num)
  have hc : itemBonusChars ⟨"aé", 3⟩ = 0 := by
    show (if ("aé" : String).length % 3 = 0
      then qtrunc ((3 : ℚ) * 0.2 + 0.5) else 0) = 0
    rw [if_neg (by decide)]
  refine ⟨by decide, by decide, hb, hc, ?_⟩
  have hr : roundBonus (0.3 : ℚ) = 0 :=
    roundBonus_eq_zero_of _ 0 (by norm_num) (by norm_num) (by norm_num)
      (by norm_num)
  have hq : quarterBonus (0.3 : ℚ) = 0 := by
    rw [quarterBonus_eq_of (0.3 : ℚ) 1 (by norm_num) (by norm_num)
      (by norm_num)]
    decide
  have hd : descPoints [⟨"aé", 3⟩] = 1 := by
    simp [descPoints, hb]
  rw [calculatePoints_eq]
  dsimp only
  rw [hr, hq, hd]
  decide

/-- C3 (amended): for every receipt, each item adds
`int(price*0.2 + 0.5)` exactly when the UTF-8 **byte** length of its
description (Go `len`, no trimming) is a multiple of 3; the byte length
equals the character count for ASCII descriptions such as `"abc"`,
which with price 3.00 contributes +1. -/
theorem C3_desc_length_bonus (r : Receipt) :
    calculatePoints r
        = retailerPoints r.retailer + roundBonus r.total
          + quarterBonus r.total + pairPoints r.items + descPoints r.items
          + dayBonus r.purchaseDate + timeBonus r.purchaseTime
      ∧ descPoints r.items = (r.items.map itemBonus).sum
      ∧ itemBonus ⟨"abc", 3⟩ = 1
      ∧ (∀ it ∈ r.items, goLen it.description % 3 = 0 →
          itemBonus it = qtrunc (it.price * 0.2 + 0.5))
      ∧ (∀ it ∈ r.items, goLen it.description % 3 ≠ 0 → itemBonus it = 0) := by
  refine ⟨calculatePoints_eq r, rfl, ?_, ?_, ?_⟩
  · exact itemBonus_eq_of "abc" 3 1 (by decide) (by norm_num) (by norm_num)
      (by norm_num)
  · intro it _ h
    unfold itemBonus
    rw [if_pos h]
  · intro it _ h
    unfold itemBonus
    rw [if_neg h]

/-- Witness for C3 on a one-item receipt: the 10-byte description
`"Emulsifier"` does not qualify, the 3-byte description `"abc"` does. -/
theorem C3_witness :
    itemBonus ⟨"abc", 3⟩ = 1 ∧ itemBonus ⟨"Emulsifier", 10⟩ = 0 := by
  have h := C3_desc_length_bonus ⟨"", 0, "", "", [⟨"Emulsifier", 10⟩]⟩
  exact ⟨h.2.2.1, h.2.2.2.2 ⟨"Emulsifier", 10⟩ (by simp) (by decide)⟩

/-- C4: submitting a receipt stores exactly `calculatePoints r` under the
returned identifier, and fetching `/receipts/{id}/points` afterwards
answers that exact score (the path hypothesis holds for every
slash-free identifier, in particular every UUID). -/
theorem C4_submit_fetch_round_trip (s : Store) (id : String) (r : Receipt)
    (hpath : pathSegments ("/receipts/" ++ id ++ "/points")
      = [id.data, pointsSeg]) :
    (submit s id r).1 = id
      ∧ get (submit s id r).2 id = (calculatePoints r, true)
      ∧ fetch (submit s id r).2 ("/receipts/" ++ id ++ "/points")
        = .ok (calculatePoints r) := by
  refine ⟨rfl, get_put s id (calculatePoints r), ?_⟩
  have hmk : String.mk id.data = id := rfl
  unfold fetch parseFetchPath
  rw [hpath]
  simp only [if_pos rfl]
  rw [hmk]
  show (match get (put s id (calculatePoints r)) id with
    | (pts, true) => FetchResult.ok pts
    | (_, false) => FetchResult.notFound) = .ok (calculatePoints r)
  rw [get_put]

/-- Witness for C4: a concrete get-after-put round trip. -/
theorem C4_witness :
    get (submit [] "abc" ⟨"", 0, "", "", []⟩).2 "abc"
        = (calculatePoints ⟨"", 0, "", "", []⟩, true)
      ∧ fetch (submit [] "abc" ⟨"", 0, "", "", []⟩).2
          ("/receipts/" ++ "abc" ++ "/points")
        = .ok (calculatePoints ⟨"", 0, "", "", []⟩) := by
  have h := C4_submit_fetch_round_trip [] "abc" ⟨"", 0, "", "", []⟩
    (by decide)
  exact ⟨h.2.1, h.2.2⟩

/-- C5: an identifier never inserted yields `(0, false)` from `get` and
the 404 `"Receipt not found"` response from the handler, while a path
that does not split into exactly two segments whose second is `points`
yields the 404 `"Invalid endpoint"` response. -/
theorem C5_not_found_and_invalid (s : Store) (id p1 p2 : String)
    (hid : ∀ e ∈ s, e.1 ≠ id)
    (h1 : parseFetchPath p1 = some id)
    (h2 : ∀ i : List Char, pathSegments p2 ≠ [i, pointsSeg]) :
    get s id = (0, false)
      ∧ fetch s p1 = .notFound
      ∧ fetch s p2 = .invalidEndpoint := by
  have hget := get_of_not_mem s id hid
  refine ⟨hget, ?_, ?_⟩
  · unfold fetch
    rw [h1]
    show (match get s id with
      | (pts, true) => FetchResult.ok pts
      | (_, false) => FetchResult.notFound) = .notFound
    rw [hget]
  · have hnone : parseFetchPath p2 = none := by
      unfold parseFetchPath
      cases hps : pathSegments p2 with
      | nil => rfl
      | cons a l1 =>
        cases l1 with
        | nil => rfl
        | cons b l2 =>
          cases l2 with
          | nil =>
            show (if b = pointsSeg then some (String.mk a) else none) = none
            rw [if_neg]
            intro hb
            exact h2 a (by rw [hps, hb])
          | cons c l3 => rfl
    unfold fetch
    rw [hnone]

/-- Witness for C5 on a one-entry store and concrete paths. -/
theorem C5_witness :
    get [("k", 7)] "u" = (0, false)
      ∧ fetch [("k", 7)] "/receipts/u/points" = .notFound
      ∧ fetch [("k", 7)] "/receipts/u" = .invalidEndpoint := by
  refine C5_not_found_and_invalid [("k", 7)] "u" "/receipts/u/points"
    "/receipts/u" (by decide) (by decide) ?_
  intro i h
  have hlen := congrArg List.length h
  have hps : pathSegments "/receipts/u" = [['u']] := by decide
  rw [hps] at hlen
  simp at hlen

/-- C6: `calculatePoints` is a pure total function: identical input gives
identical output, the score stored by `submit` depends only on the
receipt (not on the pre-existing store or the identifier), and a result
always exists (no error path). -/
theorem C6_pure_deterministic (r : Receipt) (s1 s2 : Store)
    (id1 id2 : String) :
    calculatePoints r = calculatePoints r
      ∧ (submit s1 id1 r).2 = put s1 id1 (calculatePoints r)
      ∧ (get (submit s1 id1 r).2 id1).1 = (get (submit s2 id2 r).2 id2).1
      ∧ ∃ p : ℤ, calculatePoints r = p := by
  refine ⟨rfl, rfl, ?_, ⟨calculatePoints r, rfl⟩⟩
  show (get (put s1 id1 (calculatePoints r)) id1).1
    = (get (put s2 id2 (calculatePoints r)) id2).1
  rw [get_put, get_put]

/-- C7: rule 6 adds +6 exactly when the day scanned positionally from
`purchaseDate` is odd; a missing or unparseable day is 0, which is even,
so no bonus is added. -/
theorem C7_odd_day_bonus (r : Receipt) :
    calculatePoints r
        = retailerPoints r.retailer + roundBonus r.total
          + quarterBonus r.total + pairPoints r.items + descPoints r.items
          + dayBonus r.purchaseDate + timeBonus r.purchaseTime
      ∧ (dayBonus r.purchaseDate = 6 ↔ Odd (scanDate r.purchaseDate).2.2)
      ∧ (dayBonus r.purchaseDate = 0 ↔ ¬ Odd (scanDate r.purchaseDate).2.2)
      ∧ (scanDate "").2.2 = 0 ∧ dayBonus "" = 0
      ∧ (scanDate "2022-01-01").2.2 = 1 ∧ dayBonus "2022-01-01" = 6 := by
  have key : ∀ d : ℤ, (d.tmod 2 ≠ 0 ↔ Odd d) := by
    intro d
    rw [Ne, tmod_zero_iff_dvd, Int.dvd_iff_emod_eq_zero, Int.odd_iff]
    omega
  refine ⟨calculatePoints_eq r, ?_, ?_, by decide, by decide, by decide,
    by decide⟩
  · unfold dayBonus
    by_cases hc : ((scanDate r.purchaseDate).2.2).tmod 2 ≠ 0
    · rw [if_pos hc]
      exact iff_of_true rfl ((key _).mp hc)
    · rw [if_neg hc]
      exact iff_of_false (by norm_num) fun ho => hc ((key _).mpr ho)
  · unfold dayBonus
    by_cases hc : ((scanDate r.purchaseDate).2.2).tmod 2 ≠ 0
    · rw [if_pos hc]
      exact iff_of_false (by norm_num) fun hno => hno ((key _).mp hc)
    · rw [if_neg hc]
      exact iff_of_true rfl fun ho => hc ((key _).mpr ho)

/-- Witness for C7: the odd day 1 of `"2022-01-01"` earns the bonus and
the even day 20 of `"2022-03-20"` does not. -/
theorem C7_witness :
    dayBonus "2022-01-01" = 6 ∧ dayBonus "2022-03-20" = 0 := by
  have h1 := C7_odd_day_bonus ⟨"", 0, "2022-01-01", "", []⟩
  have h2 := C7_odd_day_bonus ⟨"", 0, "2022-03-20", "", []⟩
  refine ⟨h1.2.1.mpr ?_, h2.2.2.1.mpr ?_⟩
  · show Odd (scanDate "2022-01-01").2.2
    decide
  · show ¬ Odd (scanDate "2022-03-20").2.2
    decide

/-- C8: rule 7 adds +10 exactly when the hour scanned from
`purchaseTime` lies in `[14, 16)`; hour 16 is excluded, hours before 14
earn nothing, and an unparseable hour defaults to 0. -/
theorem C8_afternoon_bonus (r : Receipt) :
    calculatePoints r
        = retailerPoints r.retailer + roundBonus r.total
          + quarterBonus r.total + pairPoints r.items + descPoints r.items
          + dayBonus r.purchaseDate + timeBonus r.purchaseTime
      ∧ (timeBonus r.purchaseTime = 10
          ↔ 14 ≤ (scanTime r.purchaseTime).1 ∧ (scanTime r.purchaseTime).1 < 16)
      ∧ (timeBonus r.purchaseTime = 0
          ↔ ¬ (14 ≤ (scanTime r.purchaseTime).1 ∧ (scanTime r.purchaseTime).1 < 16))
      ∧ (scanTime "14:33").1 = 14 ∧ timeBonus "14:33" = 10
      ∧ (scanTime "16:00").1 = 16 ∧ timeBonus "16:00" = 0
      ∧ timeBonus "13:59" = 0 ∧ (scanTime "").1 = 0 ∧ timeBonus "" = 0 := by
  refine ⟨calculatePoints_eq r, ?_, ?_, by decide, by decide, by decide,
    by decide, by decide, by decide, by decide⟩
  · unfold timeBonus
    by_cases hc : 14 ≤ (scanTime r.purchaseTime).1
      ∧ (scanTime r.purchaseTime).1 < 16
    · rw [if_pos hc]
      exact iff_of_true rfl hc
    · rw [if_neg hc]
      exact iff_of_false (by norm_num) hc
  · unfold timeBonus
    by_cases hc : 14 ≤ (scanTime r.purchaseTime).1
      ∧ (scanTime r.purchaseTime).1 < 16
    · rw [if_pos hc]
      exact iff_of_false (by norm_num) fun hn => hn hc
    · rw [if_neg hc]
      exact iff_of_true rfl hc

/-- Witness for C8: `"14:33"` earns the bonus through the iff. -/
theorem C8_witness : timeBonus "14:33" = 10 ∧ timeBonus "15:59" = 10 := by
  have h1 := C8_afternoon_bonus ⟨"", 0, "", "14:33", []⟩
  have h2 := C8_afternoon_bonus ⟨"", 0, "", "15:59", []⟩
  exact ⟨h1.2.1.mpr (by decide), h2.2.1.mpr (by decide)⟩

/-- C9: rule 4 contributes exactly `(item count / 2) * 5` (integer
division): 0 or 1 items earn 0, 2 or 3 items earn 5, 4 or 5 items earn
10; an odd trailing item adds nothing. -/
theorem C9_item_pairs (r : Receipt) :
    calculatePoints r
        = retailerPoints r.retailer + roundBonus r.total
          + quarterBonus r.total + pairPoints r.items + descPoints r.items
          + dayBonus r.purchaseDate + timeBonus r.purchaseTime
      ∧ pairPoints r.items = ((r.items.length / 2 : ℕ) : ℤ) * 5
      ∧ (r.items.length = 0 ∨ r.items.length = 1 → pairPoints r.items = 0)
      ∧ (r.items.length = 2 ∨ r.items.length = 3 → pairPoints r.items = 5)
      ∧ (r.items.length = 4 ∨ r.items.length = 5 → pairPoints r.items = 10) := by
  refine ⟨calculatePoints_eq r, rfl, ?_, ?_, ?_⟩ <;>
    · rintro (h | h) <;> simp [pairPoints, h]

/-- Witness for C9 at lists of one and two items. -/
theorem C9_witness :
    pairPoints [⟨"a", 1⟩, ⟨"b", 1⟩] = 5 ∧ pairPoints [⟨"a", 1⟩] = 0 := by
  refine ⟨(C9_item_pairs ⟨"", 0, "", "", [⟨"a", 1⟩, ⟨"b", 1⟩]⟩).2.2.2.1
    (Or.inl ?_), (C9_item_pairs ⟨"", 0, "", "", [⟨"a", 1⟩]⟩).2.2.1
    (Or.inr ?_)⟩ <;> rfl

/-- C10: the zero-value receipt (empty retailer, total 0, empty date and
time, no items) scores exactly 75: rule 2 gives +50, rule 3 gives +25,
every other rule gives 0; submitting it stores 75 under the returned
identifier. -/
theorem C10_zero_receipt :
    calculatePoints ⟨"", 0, "", "", []⟩ = 75
      ∧ get (submit [] "id0" ⟨"", 0, "", "", []⟩).2 "id0" = (75, true) := by
  have h0 : qtrunc (0 : ℚ) = 0 := by
    rw [show (0 : ℚ) = ((0 : ℤ) : ℚ) by norm_num, qtrunc_intCast]
  have hr : roundBonus (0 : ℚ) = 50 := by
    unfold roundBonus
    rw [h0, if_pos (by norm_num)]
  have hq : quarterBonus (0 : ℚ) = 25 := by
    unfold quarterBonus
    rw [show (0 : ℚ) * 4 = ((0 : ℤ) : ℚ) by norm_num, qtrunc_intCast]
    decide
  have h75 : calculatePoints ⟨"", 0, "", "", []⟩ = 75 := by
    rw [calculatePoints_eq]
    dsimp only
    rw [hr, hq]
    decide
  refine ⟨h75, ?_⟩
  show get (put [] "id0" (calculatePoints ⟨"", 0, "", "", []⟩)) "id0"
    = (75, true)
  rw [get_put, h75]

end FetchApp
